import Mathlib

/-!
Shallow embedding of the greenfintech analytics core: the transaction/MCC
classifier from src/data_loader.py and the scoring, ranking, tiering and
benefit functions from src/analysis.py.  Tabular data is modelled two ways,
matching how the code consumes it: the classifier works on untyped tables
(named columns, rows of cells, missing values as NaN), while the analytics
work on lists of typed transaction records.  Python floats are modelled as
rationals; a pandas NaN result is modelled as Option.none.
-/

/-- A cell of a tabular dataset: integer, string or boolean value, or a
missing value (pandas NaN). -/
inductive Cell where
  | cInt : Int → Cell
  | cStr : String → Cell
  | cBool : Bool → Cell
  | cNan : Cell
deriving DecidableEq, Repr

/-- A tabular dataset as the classifier sees it: a list of column names and
rows of cells, one cell per column. -/
structure Table where
  cols : List String
  rows : List (List Cell)
deriving DecidableEq, Repr

/-- Position of a column name in a header list (first occurrence). -/
def colIdx (cols : List String) (name : String) : Option Nat :=
  match cols with
  | [] => none
  | c :: cs => if c = name then some 0 else (colIdx cs name).map (· + 1)

/-- Value of the named column in one row; missing columns and short rows
read as NaN. -/
def getCell (cols : List String) (row : List Cell) (name : String) : Cell :=
  match colIdx cols name with
  | some i => row.getD i Cell.cNan
  | none => Cell.cNan

/-- Embeds the boolean-to-status mapping applied to an is_green column in
merge_transaction_with_mcc: True and False map to the two status strings,
anything else to NaN. -/
def mapIsGreen : Cell → Cell
  | Cell.cBool true => Cell.cStr "green"
  | Cell.cBool false => Cell.cStr "not green"
  | _ => Cell.cNan

/-- Status column of the reference table after the alias resolution in
merge_transaction_with_mcc (src/data_loader.py lines 56-70): status, then
green_status, then is_green (mapped), then color; with none of them present
every row is assigned the not-green status. -/
def resolvedStatusCol (mcc : Table) : List Cell :=
  if mcc.cols.contains "status" then mcc.rows.map (fun r => getCell mcc.cols r "status")
  else if mcc.cols.contains "green_status" then
    mcc.rows.map (fun r => getCell mcc.cols r "green_status")
  else if mcc.cols.contains "is_green" then
    mcc.rows.map (fun r => mapIsGreen (getCell mcc.cols r "is_green"))
  else if mcc.cols.contains "color" then
    mcc.rows.map (fun r => getCell mcc.cols r "color")
  else mcc.rows.map (fun _ => Cell.cStr "not green")

/-- Code column of the reference table under the alias chain of
merge_transaction_with_mcc (src/data_loader.py lines 72-79): mcc_code, then
mcc, then mcc_cd; with none of them present resolution yields none (the
ValueError branch). -/
def resolvedCodeCol? (mcc : Table) : Option (List Cell) :=
  if mcc.cols.contains "mcc_code" then
    some (mcc.rows.map (fun r => getCell mcc.cols r "mcc_code"))
  else if mcc.cols.contains "mcc" then
    some (mcc.rows.map (fun r => getCell mcc.cols r "mcc"))
  else if mcc.cols.contains "mcc_cd" then
    some (mcc.rows.map (fun r => getCell mcc.cols r "mcc_cd"))
  else none

/-- Message of the ValueError raised when no code column alias matches. -/
def schemaErrorMsg : String := "MCC data must contain an mcc_code column"

/-- Message of the KeyError pandas raises when the transactions table lacks
the mcc join column. -/
def keyErrorMsg : String := "KeyError: mcc"

/-- Replaces a NaN status cell by the not-green status (the fillna call). -/
def fillNotGreen (c : Cell) : Cell :=
  if c = Cell.cNan then Cell.cStr "not green" else c

/-- Embeds merge_transaction_with_mcc from src/data_loader.py: pass through
when the transactions already have a status column; otherwise resolve the
reference status and code columns, left-join on the transactions mcc column
(one output row per matching reference row, a NaN-status row when no code
matches) and fill missing statuses with not green. -/
def merge_transaction_with_mcc (txns mcc : Table) : Except String Table :=
  if txns.cols.contains "status" then Except.ok txns
  else
    match resolvedCodeCol? mcc with
    | none => Except.error schemaErrorMsg
    | some codeCol =>
      if txns.cols.contains "mcc" then
        let pairs := codeCol.zip (resolvedStatusCol mcc)
        let newRows := (txns.rows.map (fun r =>
          let key := getCell txns.cols r "mcc"
          let ms := pairs.filter (fun pc => decide (pc.1 = key))
          if ms.isEmpty then [r ++ [Cell.cNan, Cell.cStr "not green"]]
          else ms.map (fun pc => r ++ [pc.1, fillNotGreen pc.2]))).flatten
        Except.ok (Table.mk (txns.cols ++ ["mcc_code", "status"]) newRows)
      else Except.error keyErrorMsg

/-- Single joined row when the reference codes are unique: the first
matching reference pair decides the appended code and status cells. -/
def joinOne (pairs : List (Cell × Cell)) (cols : List String) (r : List Cell) : List Cell :=
  match pairs.find? (fun pc => decide (pc.1 = getCell cols r "mcc")) with
  | some pc => r ++ [pc.1, fillNotGreen pc.2]
  | none => r ++ [Cell.cNan, Cell.cStr "not green"]

/-- Status cell of a joined row (the appended status column is last). -/
def rowStatus (row : List Cell) : Option Cell := row.getLast?

/-- A classified transaction record as the analytics read it: user id,
amount, free-text category, optional status (a missing status models a NaN
cell) and ISO-8601 date (so lexicographic order is date order). -/
structure Txn where
  user_id : Nat
  amount : Rat
  category : String
  status : Option String
  date : String
deriving DecidableEq, Repr

/-- Inserts a user id into a sorted duplicate-free list of user ids. -/
def insertUnique (u : Nat) : List Nat → List Nat
  | [] => [u]
  | v :: vs =>
    if u < v then u :: v :: vs else if u = v then v :: vs else v :: insertUnique u vs

/-- Sorted list of distinct user ids: the group keys of groupby(user_id). -/
def uniqueUsers (df : List Txn) : List Nat :=
  df.foldr (fun t acc => insertUnique t.user_id acc) []

/-- Rows of one user (df[df.user_id == uid]). -/
def userRows (df : List Txn) (uid : Nat) : List Txn :=
  df.filter (fun t => decide (t.user_id = uid))

/-- Number of green rows of a group ((status == green).sum()). -/
def countGreen (rows : List Txn) : Nat :=
  (rows.filter (fun t => decide (t.status = some "green"))).length

/-- Green percentage of a group of rows; missing statuses count in the
denominator but never as green. -/
def greenPercentage (rows : List Txn) : Rat :=
  ((countGreen rows : Rat) / (rows.length : Rat)) * 100

/-- Per-user aggregation shared by the scoring functions: groupby(user_id)
in sorted key order with each group's green percentage. -/
def userStats (df : List Txn) : List (Nat × Rat) :=
  (uniqueUsers df).map (fun u => (u, greenPercentage (userRows df u)))

/-- Embeds calculate_average_greenscore from src/analysis.py; the pandas
mean of an empty column is NaN, modelled as none. -/
def calculate_average_greenscore (df : List Txn) : Option Rat :=
  let s := userStats df
  if s.length = 0 then none else some (((s.map Prod.snd).sum) / (s.length : Rat))

/-- Embeds calculate_active_clients_ratio from src/analysis.py with its
explicit empty guard returning 0. -/
def calculate_active_clients_ratio (df : List Txn) : Rat :=
  let s := userStats df
  if 0 < s.length then
    (((s.filter (fun p => decide (20 ≤ p.2))).length : Rat) / (s.length : Rat)) * 100
  else 0

/-- Embeds get_client_greenscore from src/analysis.py. -/
def get_client_greenscore (df : List Txn) (uid : Nat) : Rat :=
  let rows := userRows df uid
  if rows.length = 0 then 0 else greenPercentage rows

/-- Inserts a keyed score into a descending list, after strictly larger
scores and before equal scores met later, as a stable descending sort
does. -/
def insertDesc {α : Type} (p : α × Rat) : List (α × Rat) → List (α × Rat)
  | [] => [p]
  | q :: qs => if q.2 ≤ p.2 then p :: q :: qs else q :: insertDesc p qs

/-- Stable descending sort by score, the observable tie behaviour of
sort_values(ascending=False) asserted by test_get_client_ranking. -/
def sortDesc {α : Type} : List (α × Rat) → List (α × Rat)
  | [] => []
  | p :: ps => insertDesc p (sortDesc ps)

/-- First index whose key equals u (the .index[0] lookup). -/
def idxOfKey {α : Type} [DecidableEq α] (u : α) : List (α × Rat) → Option Nat
  | [] => none
  | p :: ps => if p.1 = u then some 0 else (idxOfKey u ps).map (· + 1)

/-- Embeds get_client_ranking from src/analysis.py: 1-based position in the
descending score order; a missing user takes the IndexError branch and gets
one past the pool size. -/
def get_client_ranking (df : List Txn) (uid : Nat) : Nat :=
  match idxOfKey uid (sortDesc (userStats df)) with
  | some i => i + 1
  | none => (userStats df).length + 1

/-- Embeds get_client_eco_points from src/analysis.py. -/
def get_client_eco_points (df : List Txn) (uid : Nat) : Rat :=
  ((df.filter (fun t => decide (t.user_id = uid) && decide (t.status = some "green"))).map
    Txn.amount).sum

/-- Smallest date in a list, seeded by a first date. -/
def foldMinD (l : List String) (d : String) : String :=
  l.foldl (fun a b => if b < a then b else a) d

/-- Largest date in a list, seeded by a first date. -/
def foldMaxD (l : List String) (d : String) : String :=
  l.foldl (fun a b => if a < b then b else a) d

/-- Embeds get_client_activity_period from src/analysis.py: min and max
transaction date of the user, the N/A pair when the user has no rows. -/
def get_client_activity_period (df : List Txn) (uid : Nat) : String × String :=
  match userRows df uid with
  | [] => ("N/A", "N/A")
  | t :: ts => (foldMinD (ts.map Txn.date) t.date, foldMaxD (ts.map Txn.date) t.date)

/-- Benefit catalog for the corresponding tier in get_user_benefits (src/analysis.py). -/
def ecoLeaderBenefits : List (String × Int) := [
  ("üìâ -0.3% –ø–æ ¬´–∑–µ–ª—ë–Ω–æ–º—É¬ª –∞–≤—Ç–æ–∫—Ä–µ–¥–∏—Ç—É", 10000),
  ("üßë‚Äçüíº –ü–µ—Ä—Å–æ–Ω–∞–ª—å–Ω—ã–π ESG-–∫–æ–Ω—Å—É–ª—å—Ç–∞–Ω—Ç", 50000),
  ("üåç –£—á–∞—Å—Ç–∏–µ –≤ –∑–∞–∫—Ä—ã—Ç—ã—Ö —ç–∫–æ–ø—Ä–æ–µ–∫—Ç–∞—Ö", 100000),
  ("üìà +0.3% –ø–æ ¬´–∑–µ–ª—ë–Ω–æ–º—É¬ª –≤–∫–ª–∞–¥—É", 5000),
  ("üöó –°–µ—Ä—Ç–∏—Ñ–∏–∫–∞—Ç –Ω–∞ —Ç–µ—Å—Ç-–¥—Ä–∞–π–≤ –≠–ú", 2000),
  ("üí≥ –ë–µ—Å–ø–ª–∞—Ç–Ω–æ–µ –æ–±—Å–ª—É–∂–∏–≤–∞–Ω–∏–µ Green Card", 0),
  ("üö≤ –ú–µ—Å—è—Ü –≤–µ–ª–æ–ø—Ä–æ–∫–∞—Ç–∞", 1000),
  ("üìä –ü–µ—Ä—Å–æ–Ω–∞–ª—å–Ω—ã–π ESG-–æ—Ç—á—ë—Ç", 0),
  ("üå± –°–æ–≤–µ—Ç—ã –ø–æ ¬´–∑–µ–ª—ë–Ω—ã–º¬ª –ø–æ–∫—É–ø–∫–∞–º", 0),
  ("üèÜ –î–æ—Å—Ç—É–ø –∫ —Ä–µ–π—Ç–∏–Ω–≥—É GreenScore", 0)]

/-- Benefit catalog for the corresponding tier in get_user_benefits (src/analysis.py). -/
def activeBenefits : List (String × Int) := [
  ("üìà +0.3% –ø–æ ¬´–∑–µ–ª—ë–Ω–æ–º—É¬ª –≤–∫–ª–∞–¥—É", 5000),
  ("üöó –°–µ—Ä—Ç–∏—Ñ–∏–∫–∞—Ç –Ω–∞ —Ç–µ—Å—Ç-–¥—Ä–∞–π–≤ –≠–ú", 2000),
  ("üí≥ –ë–µ—Å–ø–ª–∞—Ç–Ω–æ–µ –æ–±—Å–ª—É–∂–∏–≤–∞–Ω–∏–µ Green Card", 0),
  ("üö≤ –ú–µ—Å—è—Ü –≤–µ–ª–æ–ø—Ä–æ–∫–∞—Ç–∞", 1000),
  ("üìä –ü–µ—Ä—Å–æ–Ω–∞–ª—å–Ω—ã–π ESG-–æ—Ç—á—ë—Ç", 0),
  ("üå± –°–æ–≤–µ—Ç—ã –ø–æ ¬´–∑–µ–ª—ë–Ω—ã–º¬ª –ø–æ–∫—É–ø–∫–∞–º", 0),
  ("üèÜ –î–æ—Å—Ç—É–ø –∫ —Ä–µ–π—Ç–∏–Ω–≥—É GreenScore", 0)]

/-- Benefit catalog for the corresponding tier in get_user_benefits (src/analysis.py). -/
def developingBenefits : List (String × Int) := [
  ("üö≤ –ú–µ—Å—è—Ü –≤–µ–ª–æ–ø—Ä–æ–∫–∞—Ç–∞", 1000),
  ("üìä –ü–µ—Ä—Å–æ–Ω–∞–ª—å–Ω—ã–π ESG-–æ—Ç—á—ë—Ç", 0),
  ("üå± –°–æ–≤–µ—Ç—ã –ø–æ ¬´–∑–µ–ª—ë–Ω—ã–º¬ª –ø–æ–∫—É–ø–∫–∞–º", 0),
  ("üèÜ –î–æ—Å—Ç—É–ø –∫ —Ä–µ–π—Ç–∏–Ω–≥—É GreenScore", 0)]

/-- Benefit catalog for the corresponding tier in get_user_benefits (src/analysis.py). -/
def newcomerBenefits : List (String × Int) := [
  ("üå± –°–æ–≤–µ—Ç—ã –ø–æ ¬´–∑–µ–ª—ë–Ω—ã–º¬ª –ø–æ–∫—É–ø–∫–∞–º", 0),
  ("üèÜ –î–æ—Å—Ç—É–ø –∫ —Ä–µ–π—Ç–∏–Ω–≥—É GreenScore", 0)]

/-- Embeds get_client_status from src/analysis.py: tier name from GreenScore and
the top-user override, with the threshold chain written out as in the source. -/
def get_client_status (g : Rat) (top : Bool) : String :=
  if top = true ∨ 25 ≤ g then "–≠–∫–æ-–ª–∏–¥–µ—Ä"
  else if 15 ≤ g then "–ê–∫—Ç–∏–≤–Ω—ã–π —É—á–∞—Å—Ç–Ω–∏–∫ green-–ø—Ä–æ–≥—Ä–∞–º–º—ã"
  else if 5 ≤ g then "–û—Å–≤–∞–∏–≤–∞–µ—Ç –∑–µ–ª—ë–Ω—ã–µ –ø—Ä–∏–≤—ã—á–∫–∏"
  else "–ù–æ–≤–∏—á–æ–∫ –≤ —É—Å—Ç–æ–π—á–∏–≤–æ—Å—Ç–∏"

/-- Embeds get_user_benefits from src/analysis.py: its own copy of the threshold
chain selects a status string and catalog; unlocked keeps names with cost ≤ eco
points, locked keeps positive-cost entries short of points as (name, deficit)
pairs (the source formats each pair into one display string). -/
def get_user_benefits (g : Rat) (e : Int) (top : Bool) :
    String × List String × List (String × Int) :=
  let sa : String × List (String × Int) :=
    if top = true ∨ 25 ≤ g then ("–≠–∫–æ-–ª–∏–¥–µ—Ä", ecoLeaderBenefits)
    else if 15 ≤ g then ("–ê–∫—Ç–∏–≤–Ω—ã–π —É—á–∞—Å—Ç–Ω–∏–∫ green-–ø—Ä–æ–≥—Ä–∞–º–º—ã", activeBenefits)
    else if 5 ≤ g then ("–û—Å–≤–∞–∏–≤–∞–µ—Ç –∑–µ–ª—ë–Ω—ã–µ –ø—Ä–∏–≤—ã—á–∫–∏", developingBenefits)
    else ("–ù–æ–≤–∏—á–æ–∫ –≤ —É—Å—Ç–æ–π—á–∏–≤–æ—Å—Ç–∏", newcomerBenefits)
  let unlocked := (sa.2.filter (fun p => decide (p.2 ≤ e))).map Prod.fst
  let locked := (sa.2.filter (fun p => decide (e < p.2) && decide (0 < p.2))).map
    (fun p => (p.1, p.2 - e))
  (sa.1, unlocked, locked)

/-- Catalog selected by the tier thresholds, used to state properties of
get_user_benefits against the tier table. -/
def tierCatalog (g : Rat) (top : Bool) : List (String × Int) :=
  if top = true ∨ 25 ≤ g then ecoLeaderBenefits
  else if 15 ≤ g then activeBenefits
  else if 5 ≤ g then developingBenefits
  else newcomerBenefits

/-- Status string of the first tier, as written (double-encoded) in src/analysis.py. -/
def ecoLeaderStatus : String := "–≠–∫–æ-–ª–∏–¥–µ—Ä"

/-- Embeds get_unique_users from src/analysis.py. -/
def get_unique_users (df : List Txn) : List Nat := uniqueUsers df

/-- Embeds get_top_green_users from src/analysis.py: nlargest keeps the
first n user ids of the stable descending score order. -/
def get_top_green_users (df : List Txn) (n : Nat) : List Nat :=
  ((sortDesc (userStats df)).take n).map Prod.fst

/-- Modelled from the spec: the recommendation fallback for a user with no
transactions; src/app.py imports get_personalized_recommendations from the
analysis module, but no provided source defines it, and the spec fixes no
literal text (section 4.5). -/
def fallbackRecommendation : String :=
  "No transactions yet: start with one green purchase"

/-- Modelled from the spec: the generic encouragement when no category
pattern matches (section 4.5). -/
def genericRecommendation : String :=
  "Keep choosing green categories to grow your GreenScore"

/-- Modelled from the spec: the suggestion for the cafe and coffee pattern
(section 4.5). -/
def cafeRecommendation : String :=
  "Try eco-friendly cafes for your coffee breaks"

/-- Modelled from the spec: the suggestion for the fuel and auto pattern
(section 4.5). -/
def fuelRecommendation : String :=
  "Consider public transport or an electric vehicle"

/-- Modelled from the spec: the low-score nudge appended below 10 percent
(section 4.5). -/
def lowScoreNudge : String :=
  "Your GreenScore is below 10: small green habits add up"

/-- Modelled from the spec: the cafe and coffee keyword set (section 4.5
names the set but not its members). -/
def cafeKeywords : List String := ["cafe", "coffee", "кофе", "кафе"]

/-- Modelled from the spec: the fuel and auto keyword set (section 4.5
names the set but not its members). -/
def fuelKeywords : List String := ["fuel", "petrol", "auto", "азс", "топливо"]

/-- Case-insensitive substring test used by the keyword matching. -/
def containsSub (hay needle : String) : Bool :=
  decide (1 < ((hay.toLower).splitOn (needle.toLower)).length)

/-- First-appearance deduplication of category names. -/
def dedupFirst (l : List String) : List String :=
  l.foldl (fun acc c => if acc.contains c then acc else acc ++ [c]) []

/-- Total spend of one category within a group of rows. -/
def categorySpend (rows : List Txn) (c : String) : Rat :=
  ((rows.filter (fun t => decide (t.category = c))).map Txn.amount).sum

/-- Modelled from the spec: top-3 categories of the user's not-green rows by
spend (section 4.5). -/
def topNotGreenCategories (rows : List Txn) : List String :=
  let ng := rows.filter (fun t => decide (t.status = some "not green"))
  let cats := dedupFirst (ng.map Txn.category)
  ((sortDesc (cats.map (fun c => (c, categorySpend ng c)))).take 3).map Prod.fst

/-- Modelled from the spec: get_personalized_recommendations, which
src/app.py imports from the analysis module but no provided source defines.
Spec section 4.5: a user with no transactions gets one fallback string;
otherwise one pattern-based (cafe set before fuel set, first match wins) or
generic message, and the low-score nudge is appended exactly when the green
percentage is below 10. -/
def get_personalized_recommendations (df : List Txn) (uid : Nat) : List String :=
  let rows := userRows df uid
  if rows.isEmpty then [fallbackRecommendation]
  else
    let cats := topNotGreenCategories rows
    let first :=
      if cats.any (fun c => cafeKeywords.any (fun k => containsSub c k)) then
        cafeRecommendation
      else if cats.any (fun c => fuelKeywords.any (fun k => containsSub c k)) then
        fuelRecommendation
      else genericRecommendation
    first :: (if get_client_greenscore df uid < 10 then [lowScoreNudge] else [])

/-- Ranking dataset of test_get_client_ranking: per-user scores 50, 100, 0
and 100, with the two 100-percent users appearing in order 2 then 4. -/
def rankDemo : List Txn := [
  ⟨1, 10, "grocery", some "green", "2023-01-01"⟩,
  ⟨1, 10, "grocery", some "not green", "2023-01-02"⟩,
  ⟨2, 10, "transport", some "green", "2023-01-03"⟩,
  ⟨2, 10, "transport", some "green", "2023-01-04"⟩,
  ⟨3, 10, "fuel", some "not green", "2023-01-05"⟩,
  ⟨3, 10, "fuel", some "not green", "2023-01-06"⟩,
  ⟨4, 10, "bike", some "green", "2023-01-07"⟩]

/-- Dataset of test_get_top_green_users_with_nones: user 3 has a row with no
status value. -/
def noneDemo : List Txn := [
  ⟨1, 10, "grocery", some "green", "2023-01-01"⟩,
  ⟨1, 10, "grocery", some "not green", "2023-01-02"⟩,
  ⟨2, 10, "transport", some "green", "2023-01-03"⟩,
  ⟨2, 10, "transport", some "green", "2023-01-04"⟩,
  ⟨3, 10, "fuel", none, "2023-01-05"⟩,
  ⟨3, 10, "fuel", some "not green", "2023-01-06"⟩]

/-- Transactions table with no status column, for the classifier claims. -/
def demoTxns : Table :=
  Table.mk ["user_id", "mcc"] [[Cell.cInt 1, Cell.cInt 5], [Cell.cInt 2, Cell.cInt 9]]

/-- Reference table whose unique codes carry green and not-green
statuses. -/
def demoMcc : Table :=
  Table.mk ["mcc_code", "status"]
    [[Cell.cInt 5, Cell.cStr "green"], [Cell.cInt 6, Cell.cStr "not green"]]

/-- Reference table carrying a status value outside the green enum. -/
def blueMcc : Table :=
  Table.mk ["mcc_code", "status"] [[Cell.cInt 5, Cell.cStr "blue"]]

/-- Single-row transactions table joining code 5. -/
def blueTxns : Table :=
  Table.mk ["user_id", "mcc"] [[Cell.cInt 1, Cell.cInt 5]]

/-- Reference table whose code column uses the spec name
merchant_category_code, which the source does not resolve. -/
def merchCatMcc : Table :=
  Table.mk ["merchant_category_code", "status"] [[Cell.cInt 5, Cell.cStr "green"]]

/-- Reference table with a code alias but no status-like column. -/
def noStatusMcc : Table :=
  Table.mk ["mcc_cd", "name"] [[Cell.cInt 5, Cell.cStr "x"]]

/-- Transactions table already carrying a status column. -/
def classifiedTxns : Table :=
  Table.mk ["user_id", "mcc", "status"] [[Cell.cInt 1, Cell.cInt 5, Cell.cStr "green"]]

theorem mem_insertUnique {u v : Nat} :
    ∀ {l : List Nat}, v ∈ insertUnique u l ↔ v = u ∨ v ∈ l := by
  intro l
  induction l with
  | nil => simp [insertUnique]
  | cons w ws ih =>
    simp only [insertUnique]
    split_ifs with h1 h2
    · simp only [List.mem_cons]
    · subst h2
      simp only [List.mem_cons]
      tauto
    · simp only [List.mem_cons, ih]
      tauto

theorem sorted_insertUnique {u : Nat} :
    ∀ {l : List Nat}, l.Pairwise (· < ·) → (insertUnique u l).Pairwise (· < ·) := by
  intro l
  induction l with
  | nil => intro _; simp [insertUnique]
  | cons w ws ih =>
    intro h
    rw [List.pairwise_cons] at h
    obtain ⟨hw, hws⟩ := h
    simp only [insertUnique]
    split_ifs with h1 h2
    · rw [List.pairwise_cons]
      refine ⟨?_, ?_⟩
      · intro x hx
        rcases List.mem_cons.mp hx with rfl | hx
        · exact h1
        · exact Nat.lt_trans h1 (hw x hx)
      · rw [List.pairwise_cons]
        exact ⟨hw, hws⟩
    · rw [List.pairwise_cons]
      exact ⟨hw, hws⟩
    · rw [List.pairwise_cons]
      refine ⟨?_, ih hws⟩
      intro x hx
      rcases mem_insertUnique.mp hx with rfl | hx
      · exact Nat.lt_of_le_of_ne (Nat.le_of_not_lt h1) (fun he => h2 he.symm)
      · exact hw x hx

theorem sorted_uniqueUsers (df : List Txn) : (uniqueUsers df).Pairwise (· < ·) := by
  induction df with
  | nil => simp [uniqueUsers]
  | cons t ts ih => exact sorted_insertUnique ih

theorem nodup_uniqueUsers (df : List Txn) : (uniqueUsers df).Nodup :=
  (sorted_uniqueUsers df).imp Nat.ne_of_lt

theorem mem_uniqueUsers {df : List Txn} {u : Nat} :
    u ∈ uniqueUsers df ↔ ∃ t ∈ df, t.user_id = u := by
  induction df with
  | nil => simp [uniqueUsers]
  | cons t ts ih =>
    show u ∈ insertUnique t.user_id (uniqueUsers ts) ↔ _
    rw [mem_insertUnique]
    simp only [ih]
    constructor
    · rintro (rfl | ⟨x, hx, rfl⟩)
      · exact ⟨t, List.mem_cons_self t ts, rfl⟩
      · exact ⟨x, List.mem_cons_of_mem t hx, rfl⟩
    · rintro ⟨x, hx, rfl⟩
      rcases List.mem_cons.mp hx with rfl | hx
      · exact Or.inl rfl
      · exact Or.inr ⟨x, hx, rfl⟩

theorem map_fst_userStats (df : List Txn) :
    (userStats df).map Prod.fst = uniqueUsers df := by
  simp [userStats, List.map_map, Function.comp_def]

theorem perm_insertDesc {α : Type} (p : α × Rat) (l : List (α × Rat)) :
    List.Perm (insertDesc p l) (p :: l) := by
  induction l with
  | nil => exact List.Perm.refl _
  | cons q qs ih =>
    simp only [insertDesc]
    split_ifs with h
    · exact List.Perm.refl _
    · exact (List.Perm.cons q ih).trans (List.Perm.swap p q qs)

theorem perm_sortDesc {α : Type} (l : List (α × Rat)) : List.Perm (sortDesc l) l := by
  induction l with
  | nil => exact List.Perm.refl _
  | cons p ps ih =>
    exact (perm_insertDesc p (sortDesc ps)).trans (List.Perm.cons p ih)

theorem idxOfKey_eq_none_iff {α : Type} [DecidableEq α] {u : α} :
    ∀ {l : List (α × Rat)}, idxOfKey u l = none ↔ ∀ p ∈ l, p.1 ≠ u := by
  intro l
  induction l with
  | nil => simp [idxOfKey]
  | cons p ps ih =>
    simp only [idxOfKey, List.forall_mem_cons]
    split_ifs with h
    · simp [h]
    · simp [h, Option.map_eq_none', ih]

theorem idxOfKey_isSome_of_mem {α : Type} [DecidableEq α] {u : α} {s : Rat} :
    ∀ {l : List (α × Rat)}, (u, s) ∈ l → ∃ i, idxOfKey u l = some i := by
  intro l
  induction l with
  | nil => simp
  | cons p ps ih =>
    intro hm
    by_cases h : p.1 = u
    · exact ⟨0, by simp [idxOfKey, h]⟩
    · rcases List.mem_cons.mp hm with rfl | hm'
      · exact absurd rfl h
      · obtain ⟨i, hi⟩ := ih hm'
        exact ⟨i + 1, by simp [idxOfKey, h, hi]⟩

/-- C6: on an empty dataset the average GreenScore is the undefined NaN
value (modelled as none, not coerced to 0) while the active-clients ratio
is 0; the two empty-input policies are asymmetric exactly as stated. -/
theorem empty_dataset_asymmetry (df : List Txn) (h : df = []) :
    calculate_average_greenscore df = none ∧ calculate_active_clients_ratio df = 0 := by
  subst h
  exact ⟨rfl, rfl⟩

/-- Witness for empty_dataset_asymmetry at the empty dataset. -/
theorem empty_dataset_asymmetry_witness :
    calculate_average_greenscore [] = none ∧ calculate_active_clients_ratio [] = 0 :=
  empty_dataset_asymmetry [] rfl

/-- C9: a transactions table that already carries a status column passes
through merge_transaction_with_mcc unchanged, whatever the reference
table, so reclassification is a no-op. -/
theorem merge_passthrough (txns mcc : Table) (h : txns.cols.contains "status" = true) :
    merge_transaction_with_mcc txns mcc = Except.ok txns := by
  unfold merge_transaction_with_mcc
  rw [if_pos h]

/-- Witness for merge_passthrough on a concrete classified table. -/
theorem merge_passthrough_witness :
    merge_transaction_with_mcc classifiedTxns demoMcc = Except.ok classifiedTxns :=
  merge_passthrough classifiedTxns demoMcc rfl

/-- C10: the tier name from get_client_status agrees with the status
component of get_user_benefits for every score, eco-point balance and
top-user flag, although the two threshold tables are written out twice in
the source. -/
theorem status_tables_agree (g : Rat) (e : Int) (top : Bool) :
    get_client_status g top = (get_user_benefits g e top).1 := by
  by_cases h1 : top = true ∨ 25 ≤ g
  · simp [get_client_status, get_user_benefits, h1]
  · by_cases h2 : 15 ≤ g
    · simp [get_client_status, get_user_benefits, h1, h2]
    · by_cases h3 : 5 ≤ g
      · simp [get_client_status, get_user_benefits, h1, h2, h3]
      · simp [get_client_status, get_user_benefits, h1, h2, h3]

theorem filter_le_add_filter_lt_length (l : List (String × Int)) (e : Int) :
    (l.filter (fun p => decide (p.2 ≤ e))).length +
      (l.filter (fun p => decide (e < p.2))).length = l.length := by
  induction l with
  | nil => rfl
  | cons q qs ih =>
    by_cases h : q.2 ≤ e
    · have h2 : ¬ e < q.2 := not_lt.mpr h
      simp [List.filter_cons, h, h2]
      omega
    · have h2 : e < q.2 := not_le.mp h
      simp [List.filter_cons, h, h2]
      omega

theorem locked_filter_eq (l : List (String × Int)) {e : Int} (he : 0 ≤ e) :
    l.filter (fun p => decide (e < p.2) && decide (0 < p.2)) =
      l.filter (fun p => decide (e < p.2)) := by
  apply List.filter_congr
  intro p _
  by_cases h : e < p.2
  · have h0 : 0 < p.2 := lt_of_le_of_lt he h
    simp [h, h0]
  · simp [h]

theorem benefits_components (g : Rat) (e : Int) (top : Bool) :
    (get_user_benefits g e top).2.1 =
      ((tierCatalog g top).filter (fun p => decide (p.2 ≤ e))).map Prod.fst ∧
    (get_user_benefits g e top).2.2 =
      ((tierCatalog g top).filter (fun p => decide (e < p.2) && decide (0 < p.2))).map
        (fun p => (p.1, p.2 - e)) := by
  by_cases h1 : top = true ∨ 25 ≤ g
  · constructor <;> simp [get_user_benefits, tierCatalog, h1]
  · by_cases h2 : 15 ≤ g
    · constructor <;> simp [get_user_benefits, tierCatalog, h1, h2]
    · by_cases h3 : 5 ≤ g
      · constructor <;> simp [get_user_benefits, tierCatalog, h1, h2, h3]
      · constructor <;> simp [get_user_benefits, tierCatalog, h1, h2, h3]

/-- C4: for a non-negative eco-point balance, get_user_benefits unlocks
exactly the catalog entries whose cost is within the balance (zero-cost
entries always unlock), locks the remaining entries with the exact deficit
cost minus balance, and at score 30 with 60000 points yields the first-tier
status with nine unlocked entries and one locked entry of deficit 40000
(the 100000-cost entry). -/
theorem benefits_partition :
    (∀ (g : Rat) (e : Int) (top : Bool), 0 ≤ e →
      (get_user_benefits g e top).2.1 =
        ((tierCatalog g top).filter (fun p => decide (p.2 ≤ e))).map Prod.fst ∧
      (get_user_benefits g e top).2.2 =
        ((tierCatalog g top).filter (fun p => decide (e < p.2))).map
          (fun p => (p.1, p.2 - e)) ∧
      (get_user_benefits g e top).2.1.length + (get_user_benefits g e top).2.2.length =
        (tierCatalog g top).length ∧
      (∀ p ∈ tierCatalog g top, p.2 = 0 → p.1 ∈ (get_user_benefits g e top).2.1)) ∧
    ((get_user_benefits 30 60000 false).1 = ecoLeaderStatus ∧
      (get_user_benefits 30 60000 false).2.1.length = 9 ∧
      (get_user_benefits 30 60000 false).2.2.map Prod.snd = [40000]) := by
  constructor
  · intro g e top he
    obtain ⟨hu, hl⟩ := benefits_components g e top
    refine ⟨hu, ?_, ?_, ?_⟩
    · rw [hl, locked_filter_eq _ he]
    · rw [hu, hl, locked_filter_eq _ he]
      simp only [List.length_map]
      exact filter_le_add_filter_lt_length _ e
    · intro p hp hp0
      rw [hu]
      refine List.mem_map.mpr ⟨p, ?_, rfl⟩
      rw [List.mem_filter]
      refine ⟨hp, ?_⟩
      simp [hp0, he]
  · refine ⟨?_, ?_, ?_⟩ <;> with_unfolding_all decide

/-- Witness for benefits_partition: the partition count at a concrete
tier, balance and flag. -/
theorem benefits_partition_witness :
    (get_user_benefits 20 0 false).2.1.length + (get_user_benefits 20 0 false).2.2.length =
      (tierCatalog 20 false).length :=
  ((benefits_partition.1 20 0 false (by decide)).2.2).1

/-- C8: per-client queries for a user id absent from the dataset never
raise: the GreenScore is 0, the eco points are 0, the activity period is
the N/A sentinel pair, and the rank is one past the user count. -/
theorem unknown_user_sentinels (df : List Txn) (uid : Nat)
    (h : ∀ t ∈ df, t.user_id ≠ uid) :
    get_client_greenscore df uid = 0 ∧
    get_client_eco_points df uid = 0 ∧
    get_client_activity_period df uid = ("N/A", "N/A") ∧
    get_client_ranking df uid = (uniqueUsers df).length + 1 := by
  have hrows : userRows df uid = [] := by
    rw [userRows, List.filter_eq_nil_iff]
    intro t ht
    simp [h t ht]
  refine ⟨?_, ?_, ?_, ?_⟩
  · simp [get_client_greenscore, hrows]
  · have hfil :
        df.filter (fun t => decide (t.user_id = uid) && decide (t.status = some "green")) =
          [] := by
      rw [List.filter_eq_nil_iff]
      intro t ht
      simp [h t ht]
    simp [get_client_eco_points, hfil]
  · simp [get_client_activity_period, hrows]
  · have hnone : idxOfKey uid (sortDesc (userStats df)) = none := by
      rw [idxOfKey_eq_none_iff]
      intro p hp hpu
      have hmem : p ∈ userStats df := ((perm_sortDesc (userStats df)).mem_iff).mp hp
      have hfst : p.1 ∈ (userStats df).map Prod.fst := List.mem_map_of_mem _ hmem
      rw [map_fst_userStats] at hfst
      obtain ⟨t, ht, htu⟩ := mem_uniqueUsers.mp hfst
      exact h t ht (htu.trans hpu)
    simp only [get_client_ranking, hnone]
    simp [userStats]

/-- Witness for unknown_user_sentinels at a user id outside the ranking
dataset. -/
theorem unknown_user_sentinels_witness :
    get_client_greenscore rankDemo 99 = 0 ∧
    get_client_eco_points rankDemo 99 = 0 ∧
    get_client_activity_period rankDemo 99 = ("N/A", "N/A") ∧
    get_client_ranking rankDemo 99 = (uniqueUsers rankDemo).length + 1 :=
  unknown_user_sentinels rankDemo 99 (by decide)

/-- C5: a user with no transactions gets exactly the single fallback
string; otherwise the recommendation list is one pattern-or-generic
message followed by the low-score nudge exactly when the green percentage
is below 10. -/
theorem recommendations_shape (df : List Txn) (uid : Nat) :
    (userRows df uid = [] →
      get_personalized_recommendations df uid = [fallbackRecommendation]) ∧
    (userRows df uid ≠ [] →
      ∃ m, get_personalized_recommendations df uid =
        m :: (if get_client_greenscore df uid < 10 then [lowScoreNudge] else [])) := by
  constructor
  · intro h
    simp [get_personalized_recommendations, h]
  · intro h
    have hne : (userRows df uid).isEmpty = false := by
      rw [List.isEmpty_eq_false]
      exact h
    simp only [get_personalized_recommendations, hne, Bool.false_eq_true, if_false]
    exact ⟨_, rfl⟩

/-- Witness for recommendations_shape: the empty dataset has no rows for
user 0, so the single fallback string is returned. -/
theorem recommendations_shape_witness :
    get_personalized_recommendations [] 0 = [fallbackRecommendation] :=
  (recommendations_shape [] 0).1 rfl

theorem filterScore_insertDesc_eq {α : Type} {s : Rat} (x : α × Rat) (hx : x.2 = s) :
    ∀ (m : List (α × Rat)),
      (insertDesc x m).filter (fun p => decide (p.2 = s)) =
        x :: m.filter (fun p => decide (p.2 = s)) := by
  intro m
  induction m with
  | nil => simp [insertDesc, hx]
  | cons q qs ih =>
    simp only [insertDesc]
    split_ifs with h
    · rw [List.filter_cons_of_pos (by simp [hx])]
    · have hq : ¬ q.2 = s := fun he => h (le_of_eq (he.trans hx.symm))
      rw [List.filter_cons_of_neg (by simp [hq]), List.filter_cons_of_neg (by simp [hq]),
        ih]

theorem filterScore_insertDesc_ne {α : Type} {s : Rat} (x : α × Rat) (hx : ¬ x.2 = s) :
    ∀ (m : List (α × Rat)),
      (insertDesc x m).filter (fun p => decide (p.2 = s)) =
        m.filter (fun p => decide (p.2 = s)) := by
  intro m
  induction m with
  | nil => simp [insertDesc, hx]
  | cons q qs ih =>
    simp only [insertDesc]
    split_ifs with h
    · rw [List.filter_cons_of_neg (by simp [hx])]
    · by_cases hq : q.2 = s
      · rw [List.filter_cons_of_pos (by simp [hq]), List.filter_cons_of_pos (by simp [hq]),
          ih]
      · rw [List.filter_cons_of_neg (by simp [hq]), List.filter_cons_of_neg (by simp [hq]),
          ih]

theorem filterScore_sortDesc {α : Type} (s : Rat) :
    ∀ (l : List (α × Rat)),
      (sortDesc l).filter (fun p => decide (p.2 = s)) =
        l.filter (fun p => decide (p.2 = s)) := by
  intro l
  induction l with
  | nil => rfl
  | cons x xs ih =>
    show (insertDesc x (sortDesc xs)).filter _ = _
    by_cases hx : x.2 = s
    · rw [filterScore_insertDesc_eq x hx, ih, List.filter_cons_of_pos (by simp [hx])]
    · rw [filterScore_insertDesc_ne x hx, ih, List.filter_cons_of_neg (by simp [hx])]

theorem before_of_sublist {α : Type} [DecidableEq α] {u v : α} {s t : Rat} :
    ∀ {l : List (α × Rat)}, (l.map Prod.fst).Nodup →
      List.Sublist [(u, s), (v, t)] l →
      ∃ i j, idxOfKey u l = some i ∧ idxOfKey v l = some j ∧ i < j := by
  intro l
  induction l with
  | nil =>
    intro _ hsub
    simp at hsub
  | cons x xs ih =>
    intro hnd hsub
    rw [List.map_cons, List.nodup_cons] at hnd
    obtain ⟨hx, hnd'⟩ := hnd
    cases hsub with
    | cons _ h' =>
      obtain ⟨i, j, hiu, hjv, hij⟩ := ih hnd' h'
      have hu : (u, s) ∈ xs := h'.subset (by simp)
      have hv : (v, t) ∈ xs := h'.subset (by simp)
      have hum : u ∈ xs.map Prod.fst := List.mem_map_of_mem _ hu
      have hvm : v ∈ xs.map Prod.fst := List.mem_map_of_mem _ hv
      have hxu : ¬ x.1 = u := fun he => hx (by rw [he]; exact hum)
      have hxv : ¬ x.1 = v := fun he => hx (by rw [he]; exact hvm)
      refine ⟨i + 1, j + 1, ?_, ?_, by omega⟩
      · simp [idxOfKey, hxu, hiu]
      · simp [idxOfKey, hxv, hjv]
    | cons₂ _ h' =>
      have hv : (v, t) ∈ xs := h'.subset (by simp)
      have hvm : v ∈ xs.map Prod.fst := List.mem_map_of_mem _ hv
      have huv : ¬ u = v := fun he => hx (by show u ∈ xs.map Prod.fst; rw [he]; exact hvm)
      obtain ⟨j, hj⟩ := idxOfKey_isSome_of_mem hv
      refine ⟨0, j + 1, ?_, ?_, by omega⟩
      · simp [idxOfKey]
      · simp [idxOfKey, huv, hj]

/-- C2: get_client_ranking is the 1-based position in the descending score
order with a stable tie-break: a user whose entry precedes another
equal-scoring user's entry in the per-user aggregation receives the
strictly smaller rank; in the test dataset the two 100-percent users 2 and
4 get ranks 1 and 2 and the others follow. -/
theorem ranking_stable_ties :
    (∀ (df : List Txn) (u v : Nat) (s : Rat),
      List.Sublist [(u, s), (v, s)] (userStats df) →
      get_client_ranking df u < get_client_ranking df v) ∧
    (get_client_ranking rankDemo 2 = 1 ∧ get_client_ranking rankDemo 4 = 2 ∧
      get_client_ranking rankDemo 1 = 3 ∧ get_client_ranking rankDemo 3 = 4) := by
  constructor
  · intro df u v s hsub
    have hnd : ((userStats df).map Prod.fst).Nodup := by
      rw [map_fst_userStats]
      exact nodup_uniqueUsers df
    have hfil : ([(u, s), (v, s)] : List (Nat × Rat)).filter (fun p => decide (p.2 = s)) =
        [(u, s), (v, s)] := by simp
    have h2 := hsub.filter (fun p => decide (p.2 = s))
    rw [hfil, ← filterScore_sortDesc s (userStats df)] at h2
    have h3 := h2.trans (List.filter_sublist _)
    have hnd2 : ((sortDesc (userStats df)).map Prod.fst).Nodup :=
      (((perm_sortDesc (userStats df)).map Prod.fst).nodup_iff).mpr hnd
    obtain ⟨i, j, hi, hj, hij⟩ := before_of_sublist hnd2 h3
    simp only [get_client_ranking, hi, hj]
    omega
  · refine ⟨?_, ?_, ?_, ?_⟩ <;> with_unfolding_all decide

/-- Witness for ranking_stable_ties: users 2 and 4 tie at 100 percent with
user 2 first in the aggregation, so the rank of user 2 is strictly
smaller. -/
theorem ranking_stable_ties_witness :
    get_client_ranking rankDemo 2 < get_client_ranking rankDemo 4 :=
  ranking_stable_ties.1 rankDemo 2 4 100 (by with_unfolding_all decide)

/-- C3 counterexample: in the test dataset where user 3 has a row with a
missing status, user 3 is scored 0 percent (missing statuses counted as
not green) and still appears in the top-3 list, instead of being excluded
from the ranking pool. -/
theorem top_green_users_none_counterexample :
    userStats noneDemo = [(1, 50), (2, 100), (3, 0)] ∧
      get_top_green_users noneDemo 3 = [2, 1, 3] := by
  exact ⟨by with_unfolding_all decide, by with_unfolding_all decide⟩

/-- C3 (amended): a user some of whose rows lack a status value remains in
the ranking pool of get_top_green_users, with missing statuses counted in
the denominator; in the test dataset user 3 scores 0 percent and appears
in the top-3 list. -/
theorem top_green_users_keeps_none_status :
    (∀ (df : List Txn) (uid : Nat), (∃ t ∈ df, t.user_id = uid) →
      uid ∈ (userStats df).map Prod.fst) ∧
    3 ∈ get_top_green_users noneDemo 3 := by
  constructor
  · intro df uid h
    rw [map_fst_userStats]
    exact mem_uniqueUsers.mpr h
  · with_unfolding_all decide

/-- Witness for top_green_users_keeps_none_status: user 3 of the
missing-status dataset is in the ranking pool. -/
theorem top_green_users_keeps_none_witness :
    3 ∈ (userStats noneDemo).map Prod.fst :=
  top_green_users_keeps_none_status.1 noneDemo 3 (by decide)

theorem rowStatus_append_pair (r : List Cell) (a b : Cell) :
    rowStatus (r ++ [a, b]) = some b := by
  rw [rowStatus, show r ++ [a, b] = (r ++ [a]) ++ [b] by simp, List.getLast?_concat]

theorem length_resolvedStatusCol (mcc : Table) :
    (resolvedStatusCol mcc).length = mcc.rows.length := by
  unfold resolvedStatusCol
  split_ifs <;> simp

theorem length_resolvedCodeCol {mcc : Table} {codeCol : List Cell}
    (h : resolvedCodeCol? mcc = some codeCol) : codeCol.length = mcc.rows.length := by
  unfold resolvedCodeCol? at h
  split_ifs at h
  · injection h with h2
    subst h2
    simp
  · injection h with h2
    subst h2
    simp
  · injection h with h2
    subst h2
    simp

theorem map_fst_pairs {mcc : Table} {codeCol : List Cell}
    (h : resolvedCodeCol? mcc = some codeCol) :
    (codeCol.zip (resolvedStatusCol mcc)).map Prod.fst = codeCol :=
  List.map_fst_zip _ _
    (by rw [length_resolvedCodeCol h, length_resolvedStatusCol])

theorem filter_key_single (k : Cell) :
    ∀ (l : List (Cell × Cell)), (l.map Prod.fst).Nodup →
      (l.filter (fun pc => decide (pc.1 = k)) = [] ∧
        l.find? (fun pc => decide (pc.1 = k)) = none) ∨
      (∃ pc, l.filter (fun pc => decide (pc.1 = k)) = [pc] ∧
        l.find? (fun pc => decide (pc.1 = k)) = some pc) := by
  intro l
  induction l with
  | nil => intro _; exact Or.inl ⟨rfl, rfl⟩
  | cons q qs ih =>
    intro hnd
    rw [List.map_cons, List.nodup_cons] at hnd
    obtain ⟨hq, hnd'⟩ := hnd
    by_cases hk : q.1 = k
    · right
      have hqs : qs.filter (fun pc => decide (pc.1 = k)) = [] := by
        rw [List.filter_eq_nil_iff]
        intro pc hpc hdec
        rw [decide_eq_true_eq] at hdec
        apply hq
        rw [hk, ← hdec]
        exact List.mem_map_of_mem _ hpc
      exact ⟨q, by rw [List.filter_cons_of_pos (by simp [hk]), hqs],
        by rw [List.find?_cons_of_pos _ (by simp [hk])]⟩
    · rcases ih hnd' with ⟨h1, h2⟩ | ⟨pc, h1, h2⟩
      · exact Or.inl ⟨by rw [List.filter_cons_of_neg (by simp [hk]), h1],
          by rw [List.find?_cons_of_neg _ (by simp [hk]), h2]⟩
      · exact Or.inr ⟨pc, by rw [List.filter_cons_of_neg (by simp [hk]), h1],
          by rw [List.find?_cons_of_neg _ (by simp [hk]), h2]⟩

theorem joinRow_eq_joinOne (pairs : List (Cell × Cell))
    (hn : (pairs.map Prod.fst).Nodup) (cols : List String) (r : List Cell) :
    (if (pairs.filter (fun pc => decide (pc.1 = getCell cols r "mcc"))).isEmpty then
        [r ++ [Cell.cNan, Cell.cStr "not green"]]
      else (pairs.filter (fun pc => decide (pc.1 = getCell cols r "mcc"))).map
        (fun pc => r ++ [pc.1, fillNotGreen pc.2])) = [joinOne pairs cols r] := by
  rcases filter_key_single (getCell cols r "mcc") pairs hn with ⟨h1, h2⟩ | ⟨pc, h1, h2⟩
  · simp [h1, joinOne, h2]
  · simp [h1, joinOne, h2]

theorem flatten_map_singleton {β γ : Type} (l : List β) (g : β → γ) :
    (l.map (fun r => [g r])).flatten = l.map g := by
  induction l with
  | nil => rfl
  | cons x xs ih => simp [ih]

theorem merge_eq_map_joinOne (txns mcc : Table) (codeCol : List Cell)
    (hs : txns.cols.contains "status" = false)
    (hm : txns.cols.contains "mcc" = true)
    (hc : resolvedCodeCol? mcc = some codeCol)
    (hnd : codeCol.Nodup) :
    merge_transaction_with_mcc txns mcc =
      Except.ok (Table.mk (txns.cols ++ ["mcc_code", "status"])
        (txns.rows.map (joinOne (codeCol.zip (resolvedStatusCol mcc)) txns.cols))) := by
  have hpn : ((codeCol.zip (resolvedStatusCol mcc)).map Prod.fst).Nodup := by
    rw [map_fst_pairs hc]
    exact hnd
  have h : ∀ r ∈ txns.rows,
      (if ((codeCol.zip (resolvedStatusCol mcc)).filter
            (fun pc => decide (pc.1 = getCell txns.cols r "mcc"))).isEmpty then
          [r ++ [Cell.cNan, Cell.cStr "not green"]]
        else ((codeCol.zip (resolvedStatusCol mcc)).filter
            (fun pc => decide (pc.1 = getCell txns.cols r "mcc"))).map
          (fun pc => r ++ [pc.1, fillNotGreen pc.2])) =
        [joinOne (codeCol.zip (resolvedStatusCol mcc)) txns.cols r] :=
    fun r _ => joinRow_eq_joinOne _ hpn txns.cols r
  simp only [merge_transaction_with_mcc, hs, hc, hm, Bool.false_eq_true, if_false,
    eq_self_iff_true, if_true]
  rw [List.map_congr_left h, flatten_map_singleton]

/-- C1 (amended): for a transactions table without a status column but with
the mcc join column, and a reference table that resolves a code column with
pairwise-distinct codes, the merge returns exactly one output row per input
transaction, in order; every output row ends in one status cell which is
green or not green provided every resolved reference status value is green,
not green or missing; and a row whose code matches no reference code gets
the not-green default. -/
theorem merge_unique_codes (txns mcc : Table) (codeCol : List Cell)
    (hs : txns.cols.contains "status" = false)
    (hm : txns.cols.contains "mcc" = true)
    (hc : resolvedCodeCol? mcc = some codeCol)
    (hnd : codeCol.Nodup)
    (hst : ∀ c ∈ resolvedStatusCol mcc,
      c = Cell.cStr "green" ∨ c = Cell.cStr "not green" ∨ c = Cell.cNan) :
    merge_transaction_with_mcc txns mcc =
      Except.ok (Table.mk (txns.cols ++ ["mcc_code", "status"])
        (txns.rows.map (joinOne (codeCol.zip (resolvedStatusCol mcc)) txns.cols))) ∧
    (∀ r, rowStatus (joinOne (codeCol.zip (resolvedStatusCol mcc)) txns.cols r) =
        some (Cell.cStr "green") ∨
      rowStatus (joinOne (codeCol.zip (resolvedStatusCol mcc)) txns.cols r) =
        some (Cell.cStr "not green")) ∧
    (∀ r, (∀ c ∈ codeCol, c ≠ getCell txns.cols r "mcc") →
      joinOne (codeCol.zip (resolvedStatusCol mcc)) txns.cols r =
        r ++ [Cell.cNan, Cell.cStr "not green"]) := by
  refine ⟨merge_eq_map_joinOne txns mcc codeCol hs hm hc hnd, ?_, ?_⟩
  · intro r
    cases hfind : (codeCol.zip (resolvedStatusCol mcc)).find?
        (fun pc => decide (pc.1 = getCell txns.cols r "mcc")) with
    | none =>
      right
      simp only [joinOne, hfind]
      exact rowStatus_append_pair r _ _
    | some pc =>
      have hmem : pc ∈ codeCol.zip (resolvedStatusCol mcc) :=
        List.mem_of_find?_eq_some hfind
      have hsnd : pc.2 ∈ resolvedStatusCol mcc := (List.of_mem_zip hmem).2
      simp only [joinOne, hfind]
      rw [rowStatus_append_pair]
      rcases hst pc.2 hsnd with h | h | h
      · left
        rw [h]
        decide
      · right
        rw [h]
        decide
      · right
        rw [h]
        decide
  · intro r hnone
    have hfind : (codeCol.zip (resolvedStatusCol mcc)).find?
        (fun pc => decide (pc.1 = getCell txns.cols r "mcc")) = none := by
      rw [List.find?_eq_none]
      intro pc hpc hdec
      rw [decide_eq_true_eq] at hdec
      exact hnone pc.1 (List.of_mem_zip hpc).1 hdec
    simp only [joinOne, hfind]

/-- Witness for merge_unique_codes: the two-row demo join with unique codes
5 and 6. -/
theorem merge_unique_codes_witness :
    merge_transaction_with_mcc demoTxns demoMcc =
      Except.ok (Table.mk (demoTxns.cols ++ ["mcc_code", "status"])
        (demoTxns.rows.map
          (joinOne ([Cell.cInt 5, Cell.cInt 6].zip (resolvedStatusCol demoMcc))
            demoTxns.cols))) :=
  (merge_unique_codes demoTxns demoMcc [Cell.cInt 5, Cell.cInt 6] rfl rfl rfl
    (by decide) (by decide)).1

/-- C1 counterexample: a reference table carrying the status value blue,
outside the green enum, is propagated unchanged into the merged row, whose
status cell is therefore neither green nor not green. -/
theorem merge_blue_counterexample :
    merge_transaction_with_mcc blueTxns blueMcc =
      Except.ok (Table.mk ["user_id", "mcc", "mcc_code", "status"]
        [[Cell.cInt 1, Cell.cInt 5, Cell.cInt 5, Cell.cStr "blue"]]) ∧
    rowStatus [Cell.cInt 1, Cell.cInt 5, Cell.cInt 5, Cell.cStr "blue"] ≠
      some (Cell.cStr "green") ∧
    rowStatus [Cell.cInt 1, Cell.cInt 5, Cell.cInt 5, Cell.cStr "blue"] ≠
      some (Cell.cStr "not green") :=
  ⟨rfl, by decide, by decide⟩

theorem resolvedCodeCol_none_iff (mcc : Table) :
    resolvedCodeCol? mcc = none ↔
      mcc.cols.contains "mcc_code" = false ∧ mcc.cols.contains "mcc" = false ∧
        mcc.cols.contains "mcc_cd" = false := by
  unfold resolvedCodeCol?
  split_ifs with h1 h2 h3 <;> simp_all

/-- C7 (amended): with no pre-set status column in the transactions, the
merge fails with the schema ValueError exactly when none of the aliases
mcc_code, mcc, mcc_cd is present in the reference table (the spec name
merchant_category_code is not among them); a reference table without any
status-like column never makes the merge fail by itself, and whenever the
merge succeeds it classifies every row not green. -/
theorem merge_code_resolution (txns mcc : Table)
    (hs : txns.cols.contains "status" = false)
    (hm : txns.cols.contains "mcc" = true) :
    (merge_transaction_with_mcc txns mcc = Except.error schemaErrorMsg ↔
      mcc.cols.contains "mcc_code" = false ∧ mcc.cols.contains "mcc" = false ∧
        mcc.cols.contains "mcc_cd" = false) ∧
    ((mcc.cols.contains "status" = false ∧ mcc.cols.contains "green_status" = false ∧
        mcc.cols.contains "is_green" = false ∧ mcc.cols.contains "color" = false) →
      ∀ out, merge_transaction_with_mcc txns mcc = Except.ok out →
        ∀ row ∈ out.rows, rowStatus row = some (Cell.cStr "not green")) := by
  constructor
  · rw [← resolvedCodeCol_none_iff]
    constructor
    · intro herr
      cases hc : resolvedCodeCol? mcc with
      | none => rfl
      | some codeCol =>
        simp only [merge_transaction_with_mcc, hs, Bool.false_eq_true, if_false, hc, hm,
          eq_self_iff_true, if_true] at herr
        exact Except.noConfusion herr
    · intro hc
      simp only [merge_transaction_with_mcc, hs, Bool.false_eq_true, if_false, hc]
  · intro hnost out hout row hrow
    obtain ⟨h1, h2, h3, h4⟩ := hnost
    have hstat : resolvedStatusCol mcc = mcc.rows.map (fun _ => Cell.cStr "not green") := by
      simp only [resolvedStatusCol, h1, h2, h3, h4, Bool.false_eq_true, if_false]
    cases hc : resolvedCodeCol? mcc with
    | none =>
      rw [show merge_transaction_with_mcc txns mcc = Except.error schemaErrorMsg by
        simp only [merge_transaction_with_mcc, hs, Bool.false_eq_true, if_false, hc]] at hout
      exact Except.noConfusion hout
    | some codeCol =>
      simp only [merge_transaction_with_mcc, hs, Bool.false_eq_true, if_false, hc, hm,
        eq_self_iff_true, if_true] at hout
      injection hout with h5
      subst h5
      obtain ⟨li, hli, hrowli⟩ := List.mem_flatten.mp hrow
      obtain ⟨r, hr, rfl⟩ := List.mem_map.mp hli
      by_cases hemp : ((codeCol.zip (resolvedStatusCol mcc)).filter
          (fun pc => decide (pc.1 = getCell txns.cols r "mcc"))).isEmpty
      · rw [if_pos hemp] at hrowli
        rw [List.mem_singleton] at hrowli
        subst hrowli
        exact rowStatus_append_pair r _ _
      · rw [if_neg hemp] at hrowli
        obtain ⟨pc, hpc, rfl⟩ := List.mem_map.mp hrowli
        have hsnd : pc.2 ∈ resolvedStatusCol mcc :=
          (List.of_mem_zip (List.mem_of_mem_filter hpc)).2
        rw [hstat] at hsnd
        obtain ⟨c, hcm, hpc2⟩ := List.mem_map.mp hsnd
        rw [rowStatus_append_pair, ← hpc2]
        rfl

/-- Witness for merge_code_resolution: a reference table with only the
mcc_cd alias and no status-like column joins successfully and classifies
the matched row not green. -/
theorem merge_code_resolution_witness :
    rowStatus [Cell.cInt 1, Cell.cInt 5, Cell.cInt 5, Cell.cStr "not green"] =
      some (Cell.cStr "not green") :=
  (merge_code_resolution blueTxns noStatusMcc rfl rfl).2 (by decide)
    (Table.mk ["user_id", "mcc", "mcc_code", "status"]
      [[Cell.cInt 1, Cell.cInt 5, Cell.cInt 5, Cell.cStr "not green"]]) rfl
    [Cell.cInt 1, Cell.cInt 5, Cell.cInt 5, Cell.cStr "not green"] (by decide)

/-- C7 counterexample: a reference table whose only code column is named
merchant_category_code is not resolved, so the merge fails with the schema
error even though that claimed alias is present. -/
theorem merge_merchant_category_counterexample :
    merge_transaction_with_mcc blueTxns merchCatMcc = Except.error schemaErrorMsg := rfl
